import Mathlib

/-!
Verification of the querybinder core against its specification.

Modelling conventions:
* A Rust byte buffer (`&[u8]`) is a `List Nat` whose elements are the byte
  values; a Rust `&str` / `String` is likewise its UTF-8 byte sequence.
* Fallible operations (slice indexing that can panic, `expect`, checked
  integer subtraction as under debug assertions) return `Option`; `none`
  models a panic/abort.
* Machine integers (`usize`) are `Nat` with explicit underflow checks at the
  subtraction sites where the Rust code could overflow.
-/

/-- UTF-8 bytes of an ASCII Lean string literal (used for concrete inputs and
the literal pieces of format strings; all literals used are ASCII). -/
def ascii (s : String) : List Nat := s.data.map Char.toNat

/-- Decimal digits, peeling one digit per unit of fuel; `fuel ≥ n` always
suffices since `n / 10 < n` for `n ≥ 10`. -/
def natDigitsGo : Nat → Nat → List Nat
  | 0, n => [48 + n % 10]
  | fuel + 1, n =>
    if n < 10 then [48 + n] else natDigitsGo fuel (n / 10) ++ [48 + n % 10]

/-- Decimal digit bytes of a natural number, as produced by Rust
`usize::to_string` (only ever applied to positive line numbers). -/
def natDigits (n : Nat) : List Nat := natDigitsGo n n

/-- `iter::repeat(' ').take n` -/
def spaces (n : Nat) : List Nat := List.replicate n 32

/-- `iter::repeat('~').take n` -/
def tildes (n : Nat) : List Nat := List.replicate n 126

/-- Rust slice indexing `&input[a..b]`: panics (`none`) unless `a ≤ b ≤ len`. -/
def sliceBytes (input : List Nat) (a b : Nat) : Option (List Nat) :=
  if a ≤ b ∧ b ≤ input.length then some ((input.take b).drop a) else none

/-- Is `b` a UTF-8 continuation byte (`0x80..=0xBF`)? -/
def contB (b : Nat) : Bool := 0x80 ≤ b && b ≤ 0xBF

/-- Admissible first continuation byte after a 3-byte starter `b`. -/
def cont3fst (b c : Nat) : Bool :=
  if b = 0xE0 then 0xA0 ≤ c && c ≤ 0xBF
  else if b = 0xED then 0x80 ≤ c && c ≤ 0x9F
  else contB c

/-- Admissible first continuation byte after a 4-byte starter `b`. -/
def cont4fst (b c : Nat) : Bool :=
  if b = 0xF0 then 0x90 ≤ c && c ≤ 0xBF
  else if b = 0xF4 then 0x80 ≤ c && c ≤ 0x8F
  else contB c

/-- Model of `std::str::from_utf8(..).is_ok()`: the standard UTF-8 validation
automaton (RFC 3629 ranges, surrogates and overlong forms rejected). -/
def utf8Valid : List Nat → Bool
  | [] => true
  | b :: rest =>
    if b ≤ 0x7F then utf8Valid rest
    else if 0xC2 ≤ b ∧ b ≤ 0xDF then
      match rest with
      | c :: r => contB c && utf8Valid r
      | [] => false
    else if 0xE0 ≤ b ∧ b ≤ 0xEF then
      match rest with
      | c1 :: c2 :: r => cont3fst b c1 && contB c2 && utf8Valid r
      | _ => false
    else if 0xF0 ≤ b ∧ b ≤ 0xF4 then
      match rest with
      | c1 :: c2 :: c3 :: r => cont4fst b c1 && contB c2 && contB c3 && utf8Valid r
      | _ => false
    else false

/-- The UTF-8 encoding of U+FFFD REPLACEMENT CHARACTER. -/
def replChar : List Nat := [0xEF, 0xBF, 0xBD]

/-- One step of lossy UTF-8 decoding at a byte `b` followed by `rest`:
returns the decoded (or replacement) chunk and how many bytes of `rest`
are consumed in addition to `b`. A maximal subpart of an ill-formed
subsequence — the longest prefix of a valid sequence — yields one U+FFFD. -/
def utf8Step (b : Nat) (rest : List Nat) : List Nat × Nat :=
  if b ≤ 0x7F then ([b], 0)
  else if 0xC2 ≤ b ∧ b ≤ 0xDF then
    match rest with
    | c :: _ => if contB c then ([b, c], 1) else (replChar, 0)
    | [] => (replChar, 0)
  else if 0xE0 ≤ b ∧ b ≤ 0xEF then
    match rest with
    | c1 :: c2 :: _ =>
      if cont3fst b c1 then
        if contB c2 then ([b, c1, c2], 2) else (replChar, 1)
      else (replChar, 0)
    | [c1] => if cont3fst b c1 then (replChar, 1) else (replChar, 0)
    | [] => (replChar, 0)
  else if 0xF0 ≤ b ∧ b ≤ 0xF4 then
    match rest with
    | c1 :: c2 :: c3 :: _ =>
      if cont4fst b c1 then
        if contB c2 then
          if contB c3 then ([b, c1, c2, c3], 3) else (replChar, 2)
        else (replChar, 1)
      else (replChar, 0)
    | [c1, c2] =>
      if cont4fst b c1 then
        if contB c2 then (replChar, 2) else (replChar, 1)
      else (replChar, 0)
    | [c1] => if cont4fst b c1 then (replChar, 1) else (replChar, 0)
    | [] => (replChar, 0)
  else (replChar, 0)

/-- Lossy decoding loop, consuming at least one byte per unit of fuel. -/
def utf8LossyGo : Nat → List Nat → List Nat
  | 0, _ => []
  | fuel + 1, l =>
    match l with
    | [] => []
    | b :: rest =>
      let s := utf8Step b rest
      s.1 ++ utf8LossyGo fuel (rest.drop s.2)

/-- Model of `String::from_utf8_lossy` (on the result's UTF-8 bytes): each
maximal subpart of an ill-formed subsequence is replaced by one U+FFFD,
exactly as Rust's lossy conversion does. `l.length` fuel suffices because
every step consumes at least one byte. -/
def utf8Lossy (l : List Nat) : List Nat := utf8LossyGo l.length l

/-- `src/src/lib.rs` `is_ascii_identifier`: ASCII alphanumeric or underscore.
`u8::is_ascii_alphanumeric` accepts `A..=Z`, `a..=z`, `0..=9`. -/
def is_ascii_identifier (ch : Nat) : Bool :=
  ((65 ≤ ch && ch ≤ 90) || (97 ≤ ch && ch ≤ 122) || (48 ≤ ch && ch ≤ 57)) || ch == 95

/-- `src/src/lib.rs` `Span`: byte offsets into the original buffer.
The field `stop` models the Rust field `end` (a reserved word in Lean). -/
structure Span where
  start : Nat
  stop : Nat
deriving DecidableEq, Repr

/-- `src/src/lib.rs` `Span::resolve`: `str::from_utf8(&input[start..end])`
followed by `.expect(..)`; slice indexing out of bounds or invalid UTF-8
panics (`none`). The returned `&str` is its UTF-8 byte sequence. -/
def Span.resolve (s : Span) (input : List Nat) : Option (List Nat) :=
  match sliceBytes input s.start s.stop with
  | none => none
  | some bs => if utf8Valid bs then some bs else none

/-- `src/src/error.rs` `highlight_span_in_line`, first loop:
`for (&c, i) in input.iter().zip(0..) { if i == span.start { break } if c == b'\n' { line += 1; line_start = i + 1; } }`.
Arguments: remaining input, current index `i`, `span.start`, accumulators
`line` and `line_start`; returns the final `(line, line_start)`. -/
def locateLine : List Nat → Nat → Nat → Nat → Nat → Nat × Nat
  | [], _, _, line, lineStart => (line, lineStart)
  | c :: rest, i, stop, line, lineStart =>
    if i = stop then (line, lineStart)
    else if c = 10 then locateLine rest (i + 1) stop (line + 1) (i + 1)
    else locateLine rest (i + 1) stop line lineStart

/-- `src/src/error.rs` `highlight_span_in_line`, second loop:
`for (&c, i) in input[line_start..].iter().zip(line_start..) { if c == b'\n' { line_end = i; break } }`.
Arguments: `input[line_start..]` and the running index (starting at
`line_start`); returns the final `line_end`, which stays `0` when the rest of
the buffer holds no newline. -/
def findLineEnd : List Nat → Nat → Nat
  | [], _ => 0
  | c :: rest, i => if c = 10 then i else findLineEnd rest (i + 1)

/-- The intermediate values `highlight_span_in_line` computes before
formatting its four output lines. -/
structure HighlightParts where
  line : Nat
  lineStart : Nat
  lineEnd : Nat
  lineContent : List Nat
  markLen : Nat
deriving DecidableEq, Repr

/-- `src/src/error.rs` `highlight_span_in_line`, lines 56–84: the two scanning
loops, `String::from_utf8_lossy(&input[line_start..line_end])`, and
`mark_len = max(1, min(span.len(), line_content.len() + line_start - span.start))`.
`none` models a panic: the slice when `line_start > line_end`, and the two
`usize` subtractions when they would underflow (debug assertions). -/
def highlightParts (input : List Nat) (span : Span) : Option HighlightParts :=
  let ll := locateLine input 0 span.start 1 0
  let lineEnd := findLineEnd (input.drop ll.2) ll.2
  match sliceBytes input ll.2 lineEnd with
  | none => none
  | some lineBytes =>
    let lineContent := utf8Lossy lineBytes
    if span.stop < span.start then none
    else if lineContent.length + ll.2 < span.start then none
    else some ⟨ll.1, ll.2, lineEnd, lineContent,
               max 1 (min (span.stop - span.start) (lineContent.length + ll.2 - span.start))⟩

/-- The `--> {fname}:{line}:{column}` header line (with trailing newline);
the column is `span.start - line_start`. -/
def renderHeader (fname : List Nat) (span : Span) (p : HighlightParts) : List Nat :=
  ascii "--> " ++ fname ++ [58] ++ natDigits p.line ++ [58]
    ++ natDigits (span.start - p.lineStart) ++ [10]

/-- `src/src/error.rs` `highlight_span_in_line`, lines 86–98: the four
`writeln!` calls. `line_num_pad` is one space per character of the
line-number string; the marker line is the indent, a caret, and
`&mark_under[1..]`. -/
def renderHighlight (fname : List Nat) (span : Span) (p : HighlightParts) : List Nat :=
  let lineNumStr := natDigits p.line
  let pad := spaces lineNumStr.length
  renderHeader fname span p
    ++ pad ++ ascii " |" ++ [10]
    ++ lineNumStr ++ ascii " | " ++ p.lineContent ++ [10]
    ++ pad ++ ascii " | " ++ spaces (span.start - p.lineStart) ++ [94]
    ++ (tildes p.markLen).drop 1 ++ [10]

/-- `src/src/error.rs` `highlight_span_in_line`: the full function, returning
the formatted four-line string (as bytes), or `none` on panic. -/
def highlight_span_in_line (fname input : List Nat) (span : Span) : Option (List Nat) :=
  (highlightParts input span).map (renderHighlight fname span)

/-- The data reachable through the `Error` trait of `src/src/error.rs`:
a span, a message, an optional note (with optional span), an optional hint. -/
structure ErrorData where
  span : Span
  message : List Nat
  note : Option (List Nat × Option Span)
  hint : Option (List Nat)
deriving DecidableEq

/-- The `Hint: {}` line printed at the end of a report when a hint is present,
and nothing otherwise. -/
def hintPart (e : ErrorData) : List Nat :=
  match e.hint with
  | none => []
  | some t => ascii "Hint: " ++ t ++ [10]

/-- `src/src/error.rs` `impl dyn Error`, `print`: emits
`Error: {message}\n{highlight}`, then `Note: {note}\n` plus the note span's
highlight when present, then `Hint: {hint}\n` when present. The returned
bytes are everything written to stdout; `none` models a panic inside
`highlight_span_in_line`. -/
def errorPrint (fname input : List Nat) (e : ErrorData) : Option (List Nat) :=
  match highlight_span_in_line fname input e.span with
  | none => none
  | some h =>
    let part1 := ascii "Error: " ++ e.message ++ [10] ++ h
    match e.note with
    | none => some (part1 ++ hintPart e)
    | some (n, none) => some (part1 ++ ascii "Note: " ++ n ++ [10] ++ hintPart e)
    | some (n, some s2) =>
      match highlight_span_in_line fname input s2 with
      | none => none
      | some h2 => some (part1 ++ ascii "Note: " ++ n ++ [10] ++ h2 ++ hintPart e)

/-- `src/src/error.rs` `ParseError`: a span and a static message. -/
structure ParseError where
  span : Span
  message : List Nat
deriving DecidableEq

/-- `src/src/error.rs` `impl Error for ParseError`: `span()` and `message()`
return the fields, `note()` and `hint()` return `None`. -/
def ParseError.toError (p : ParseError) : ErrorData :=
  ⟨p.span, p.message, none, none⟩

/-! ## Closed-form characterization of the line-locating loop -/

/-- Position just after the last newline of `p` (0 when `p` has none):
the start, within `p`, of the line its last byte belongs to. -/
def lineStartOf (p : List Nat) : Nat :=
  p.length - (p.reverse.takeWhile (fun c => !(c == 10))).length

/-- The start offset of the line containing byte offset `pos` of `input`:
just after the last newline strictly before `pos`. -/
def lineStartSpec (input : List Nat) (pos : Nat) : Nat :=
  lineStartOf (input.take pos)

theorem len_takeWhile_le (f : Nat → Bool) (l : List Nat) :
    (l.takeWhile f).length ≤ l.length := by
  induction l with
  | nil => simp
  | cons a t ih =>
    rw [List.takeWhile_cons]
    by_cases h : f a = true <;> simp [h] <;> omega

theorem takeWhile_append_left (f : Nat → Bool) (l l2 : List Nat) (x : Nat)
    (hx : x ∈ l) (hfx : f x = false) :
    (l ++ l2).takeWhile f = l.takeWhile f := by
  induction l with
  | nil => cases hx
  | cons a t ih =>
    by_cases h : f a = true
    · have hxt : x ∈ t := by
        rcases List.mem_cons.mp hx with rfl | h2
        · rw [hfx] at h; cases h
        · exact h2
      simp [List.takeWhile_cons, h, ih hxt]
    · simp [List.takeWhile_cons, h]

theorem takeWhile_append_all (f : Nat → Bool) (l l2 : List Nat)
    (hl : ∀ x ∈ l, f x = true) :
    (l ++ l2).takeWhile f = l ++ l2.takeWhile f := by
  induction l with
  | nil => simp
  | cons a t ih =>
    have ha : f a = true := hl a (List.mem_cons_self a t)
    simp [List.takeWhile_cons, ha, ih (fun x hx => hl x (List.mem_cons_of_mem a hx))]

theorem lineStartOf_nil : lineStartOf [] = 0 := rfl

theorem lineStartOf_no_nl (p : List Nat) (h : 10 ∉ p) : lineStartOf p = 0 := by
  unfold lineStartOf
  rw [List.takeWhile_eq_self_iff.mpr]
  · simp
  · intro x hx
    have : x ∈ p := List.mem_reverse.mp hx
    simp only [Bool.not_eq_true']
    exact beq_false_of_ne (fun he => h (he ▸ this))

theorem lineStartOf_cons_nl (q : List Nat) : lineStartOf (10 :: q) = 1 + lineStartOf q := by
  unfold lineStartOf
  rw [List.reverse_cons]
  by_cases h : 10 ∈ q
  · rw [takeWhile_append_left _ q.reverse [10] 10 (List.mem_reverse.mpr h) (by simp)]
    have := len_takeWhile_le (fun c => !(c == 10)) q.reverse
    simp only [List.length_cons, List.length_reverse] at *
    omega
  · rw [takeWhile_append_all _ q.reverse [10]
      (fun x hx => by
        have : x ∈ q := List.mem_reverse.mp hx
        simp only [Bool.not_eq_true']
        exact beq_false_of_ne (fun he => h (he ▸ this)))]
    have h0 := lineStartOf_no_nl q h
    unfold lineStartOf at h0
    simp [List.takeWhile_cons]
    omega

theorem lineStartOf_cons_other (c : Nat) (q : List Nat) (hc : ¬ c = 10) (hq : 10 ∈ q) :
    lineStartOf (c :: q) = 1 + lineStartOf q := by
  unfold lineStartOf
  rw [List.reverse_cons,
    takeWhile_append_left _ q.reverse [c] 10 (List.mem_reverse.mpr hq) (by simp)]
  have := len_takeWhile_le (fun c => !(c == 10)) q.reverse
  simp only [List.length_cons, List.length_reverse] at *
  omega

/-- Closed form of the first scanning loop of `highlight_span_in_line`:
the final `line` is the starting `line` plus the newlines seen among the
first `stop - i` remaining bytes, and the final `line_start` is just after
the last of those newlines (or the accumulator when there is none). -/
theorem locateLine_spec (l : List Nat) : ∀ i stop line ls : Nat, i ≤ stop →
    locateLine l i stop line ls =
      (line + ((l.take (stop - i)).count 10),
       if ((l.take (stop - i)).count 10) = 0 then ls
       else i + lineStartOf (l.take (stop - i))) := by
  induction l with
  | nil => intro i stop line ls _; simp [locateLine]
  | cons c t ih =>
    intro i stop line ls hi
    by_cases he : i = stop
    · subst he; simp [locateLine]
    · have hlt : i < stop := lt_of_le_of_ne hi he
      have hs : stop - i = (stop - (i + 1)) + 1 := by omega
      rw [hs, List.take_succ_cons]
      by_cases hc : c = 10
      · subst hc
        rw [locateLine]
        simp only [if_neg he, if_pos rfl]
        rw [ih (i + 1) stop (line + 1) (i + 1) (by omega)]
        have hcnt : ((10 : Nat) :: t.take (stop - (i + 1))).count 10
            = (t.take (stop - (i + 1))).count 10 + 1 := by
          simp [List.count_cons]
        rw [hcnt, lineStartOf_cons_nl]
        by_cases h0 : (t.take (stop - (i + 1))).count 10 = 0
        · have hz : lineStartOf (t.take (stop - (i + 1))) = 0 :=
            lineStartOf_no_nl _ (List.count_eq_zero.mp h0)
          simp [h0, hz] <;> omega
        · simp [h0, Prod.mk.injEq] <;> omega
      · rw [locateLine]
        simp only [if_neg he, if_neg hc]
        rw [ih (i + 1) stop line ls (by omega)]
        have hcnt : (c :: t.take (stop - (i + 1))).count 10
            = (t.take (stop - (i + 1))).count 10 := by
          simp [List.count_cons, beq_false_of_ne hc]
        rw [hcnt]
        by_cases h0 : (t.take (stop - (i + 1))).count 10 = 0
        · simp [h0] <;> omega
        · have hm : 10 ∈ t.take (stop - (i + 1)) := by
            by_contra hmem
            exact h0 (List.count_eq_zero.mpr hmem)
          rw [lineStartOf_cons_other c _ hc hm]
          simp [h0, Prod.mk.injEq] <;> omega

/-- The first loop as called: starting at index 0 with `line = 1`,
`line_start = 0`. -/
theorem locateLine_top (input : List Nat) (s : Nat) :
    locateLine input 0 s 1 0 =
      (1 + ((input.take s).count 10), lineStartSpec input s) := by
  rw [locateLine_spec input 0 s 1 0 (Nat.zero_le s)]
  simp only [Nat.sub_zero, Nat.zero_add, lineStartSpec]
  by_cases h0 : ((input.take s).count 10) = 0
  · simp [h0, lineStartOf_no_nl _ (List.count_eq_zero.mp h0)]
  · simp [h0]

/-- Extracting the computed line number and line start from a successful run
of `highlight_span_in_line`: the line counter ends at 1 plus the newlines
strictly before `span.start`, and `line_start` is the start of the line
containing `span.start`. -/
theorem highlightParts_line_lineStart (input : List Nat) (span : Span) (p : HighlightParts)
    (hp : highlightParts input span = some p) :
    p.line = 1 + ((input.take span.start).count 10) ∧
    p.lineStart = lineStartSpec input span.start := by
  simp only [highlightParts, locateLine_top] at hp
  split at hp
  · exact Option.noConfusion hp
  · split at hp
    · exact Option.noConfusion hp
    · split at hp
      · exact Option.noConfusion hp
      · cases Option.some.inj hp
        exact ⟨rfl, rfl⟩

theorem drop_one_replicate (n : Nat) (a : Nat) :
    (List.replicate n a).drop 1 = List.replicate (n - 1) a := by
  cases n <;> simp

/-! ## Claims about `Span::resolve` and `is_ascii_identifier` -/

/-- Claim C4: for a span with `start ≤ end ≤ buffer length` whose byte range
is valid UTF-8, `Span::resolve` returns exactly the bytes
`input[span.start..span.end]` (as the UTF-8 contents of the returned `&str`);
when the range is invalid UTF-8 or falls outside the buffer, resolution
fails hard (`none`, a panic) rather than returning a value. -/
theorem span_resolve_characterization (input : List Nat) (s : Span) :
    Span.resolve s input =
      if s.start ≤ s.stop ∧ s.stop ≤ input.length then
        (if utf8Valid ((input.take s.stop).drop s.start) then
          some ((input.take s.stop).drop s.start)
        else none)
      else none := by
  by_cases h : s.start ≤ s.stop ∧ s.stop ≤ input.length <;>
    simp [Span.resolve, sliceBytes, h]

set_option maxRecDepth 32768 in
/-- Claim C9: `is_ascii_identifier b` holds exactly when `b` is an ASCII
letter, an ASCII digit, or an underscore (byte 95); in particular every
digit byte is accepted, so a leading digit is not rejected by this
classifier. -/
theorem is_ascii_identifier_characterization :
    ∀ b : Nat, b < 256 →
      (is_ascii_identifier b = true ↔
        ((Char.ofNat b).isAlpha = true ∨ (Char.ofNat b).isDigit = true ∨ b = 95)) := by
  decide

/-- Witness for C9 at the digit byte `'5'` (53): accepted as an identifier
byte even though it cannot start a valid identifier. -/
theorem is_ascii_identifier_characterization_witness :
    53 < 256 ∧
      (is_ascii_identifier 53 = true ↔
        ((Char.ofNat 53).isAlpha = true ∨ (Char.ofNat 53).isDigit = true ∨ 53 = 95)) :=
  ⟨by decide, is_ascii_identifier_characterization 53 (by decide)⟩

/-! ## Claims about the diagnostic printer -/

set_option maxRecDepth 16384 in
/-- Claim C1 (refuted, code bug): with input `"a\nbc"` and the in-bounds span
`{start := 2, end := 3}` — whose line `"bc"` is the last line of the buffer
and has no trailing newline — `line_end` keeps its initial value 0, so
`highlight_span_in_line` evaluates `&input[2..0]` and panics (`none`), and
`Error::print` on such an error panics as well; formatting does fail. -/
theorem highlight_panics_on_unterminated_last_line :
    highlight_span_in_line (ascii "input.sql") (ascii "a\nbc") ⟨2, 3⟩ = none ∧
    errorPrint (ascii "input.sql") (ascii "a\nbc")
      ⟨⟨2, 3⟩, ascii "unexpected token", none, none⟩ = none ∧
    (2 : Nat) ≤ 3 ∧ 3 ≤ (ascii "a\nbc").length := by
  decide

/-- Claim C2 (refuted, code bug): with input `[0xFF, '\n', 'x', 'x', 'x']`
and the in-bounds span `{start := 0, end := 4}`, the line containing the
span is the single byte `0xFF` (1 byte remaining from `span.start`), so the
claimed marker length is `max 1 (min 4 1) = 1`; but the code measures the
lossy-decoded line (`0xFF` becomes the 3-byte U+FFFD) and emits a marker of
width 3, extending past the end of the source line. -/
theorem underline_overruns_line_on_invalid_utf8 :
    (highlightParts [0xFF, 10, 120, 120, 120] ⟨0, 4⟩).map HighlightParts.markLen = some 3 ∧
    (highlightParts [0xFF, 10, 120, 120, 120] ⟨0, 4⟩).map HighlightParts.lineEnd = some 1 ∧
    (highlightParts [0xFF, 10, 120, 120, 120] ⟨0, 4⟩).map HighlightParts.lineStart = some 0 ∧
    max 1 (min 4 1) = 1 ∧ (4 : Nat) ≤ [0xFF, 10, 120, 120, 120].length := by
  decide

/-- Claim C10: a `ParseError` carries exactly a span and a message; its
`note()` and `hint()` are `None`, so a report printed from it is the error
line plus the span highlight and nothing else — never a Note or Hint line. -/
theorem parse_error_no_note_no_hint :
    ∀ (p : ParseError) (fname input : List Nat),
      (ParseError.toError p).note = none ∧
      (ParseError.toError p).hint = none ∧
      errorPrint fname input (ParseError.toError p) =
        (highlight_span_in_line fname input p.span).map
          (fun h => ascii "Error: " ++ p.message ++ [10] ++ h) := by
  intro p fname input
  refine ⟨rfl, rfl, ?_⟩
  cases hh : highlight_span_in_line fname input p.span <;>
    simp [errorPrint, ParseError.toError, hintPart, hh]

/-- Claim C7: `Error::print` first emits the error message and the highlight
of the primary span; then, iff the error carries a note, the note text and —
when the note has its own span — that span's highlight; and iff a hint is
present, the hint as the final line of the report. -/
theorem error_print_structure (fname input : List Nat) (e : ErrorData)
    (h1 : (highlight_span_in_line fname input e.span).isSome = true)
    (h2 : match e.note with
          | some (_, some s2) => (highlight_span_in_line fname input s2).isSome = true
          | _ => True) :
    errorPrint fname input e = some
      (ascii "Error: " ++ e.message ++ [10]
        ++ (highlight_span_in_line fname input e.span).getD []
        ++ (match e.note with
            | none => []
            | some (n, none) => ascii "Note: " ++ n ++ [10]
            | some (n, some s2) =>
                ascii "Note: " ++ n ++ [10]
                  ++ (highlight_span_in_line fname input s2).getD [])
        ++ hintPart e) := by
  obtain ⟨h, hh⟩ := Option.isSome_iff_exists.mp h1
  rcases hne : e.note with _ | ⟨n, os⟩
  · simp [errorPrint, hh, hne]
  · rcases os with _ | s2
    · simp [errorPrint, hh, hne]
    · rw [hne] at h2
      obtain ⟨h2v, hh2⟩ := Option.isSome_iff_exists.mp h2
      simp [errorPrint, hh, hne, hh2]

/-- Witness for C7: a concrete error with message, note (with span) and
hint, printed against the buffer `"ab\ncd\n"`. -/
theorem error_print_structure_witness :
    ((highlight_span_in_line (ascii "q.sql") (ascii "ab\ncd\n")
        (⟨⟨0, 1⟩, ascii "bad thing", some (ascii "refer here", some ⟨3, 4⟩),
          some (ascii "fix it")⟩ : ErrorData).span).isSome = true) ∧
    errorPrint (ascii "q.sql") (ascii "ab\ncd\n")
        ⟨⟨0, 1⟩, ascii "bad thing", some (ascii "refer here", some ⟨3, 4⟩),
          some (ascii "fix it")⟩ = some
      (ascii "Error: " ++ ascii "bad thing" ++ [10]
        ++ (highlight_span_in_line (ascii "q.sql") (ascii "ab\ncd\n") ⟨0, 1⟩).getD []
        ++ (ascii "Note: " ++ ascii "refer here" ++ [10]
            ++ (highlight_span_in_line (ascii "q.sql") (ascii "ab\ncd\n") ⟨3, 4⟩).getD [])
        ++ hintPart ⟨⟨0, 1⟩, ascii "bad thing",
            some (ascii "refer here", some ⟨3, 4⟩), some (ascii "fix it")⟩) :=
  ⟨by decide,
    error_print_structure (ascii "q.sql") (ascii "ab\ncd\n")
      ⟨⟨0, 1⟩, ascii "bad thing", some (ascii "refer here", some ⟨3, 4⟩),
        some (ascii "fix it")⟩ (by decide) (by decide)⟩

/-- Claim C5: for a span within the buffer, the `<file>:<line>:<column>`
header of `highlight_span_in_line` reports the line as 1 plus the number of
newline bytes strictly before `span.start` (1-based) and the column as the
byte offset from the start of that line to `span.start` — byte counts, not
Unicode display widths. -/
theorem highlight_header_line_and_column (fname input : List Nat) (span : Span)
    (p : HighlightParts) (_hs : span.stop ≤ input.length)
    (hp : highlightParts input span = some p) :
    p.line = 1 + ((input.take span.start).count 10) ∧
    p.lineStart = lineStartSpec input span.start ∧
    renderHeader fname span p =
      ascii "--> " ++ fname ++ [58]
        ++ natDigits (1 + ((input.take span.start).count 10)) ++ [58]
        ++ natDigits (span.start - lineStartSpec input span.start) ++ [10] ∧
    highlight_span_in_line fname input span = some (renderHighlight fname span p) := by
  obtain ⟨hl, hls⟩ := highlightParts_line_lineStart input span p hp
  refine ⟨hl, hls, ?_, ?_⟩
  · rw [renderHeader, hl, hls]
  · rw [highlight_span_in_line, hp]
    rfl

/-- Witness for C5 on the buffer `"ab\ncd\n"` with the span `{3, 4}` (the
`c` on line 2, column 0). -/
theorem highlight_header_line_and_column_witness :
    ((⟨3, 4⟩ : Span).stop ≤ (ascii "ab\ncd\n").length ∧
      highlightParts (ascii "ab\ncd\n") ⟨3, 4⟩ = some ⟨2, 3, 5, [99, 100], 1⟩) ∧
    ((⟨2, 3, 5, [99, 100], 1⟩ : HighlightParts).line
        = 1 + (((ascii "ab\ncd\n").take 3).count 10) ∧
      (⟨2, 3, 5, [99, 100], 1⟩ : HighlightParts).lineStart
        = lineStartSpec (ascii "ab\ncd\n") 3 ∧
      renderHeader (ascii "f.sql") ⟨3, 4⟩ ⟨2, 3, 5, [99, 100], 1⟩
        = ascii "--> " ++ ascii "f.sql" ++ [58]
            ++ natDigits (1 + (((ascii "ab\ncd\n").take 3).count 10)) ++ [58]
            ++ natDigits (3 - lineStartSpec (ascii "ab\ncd\n") 3) ++ [10] ∧
      highlight_span_in_line (ascii "f.sql") (ascii "ab\ncd\n") ⟨3, 4⟩
        = some (renderHighlight (ascii "f.sql") ⟨3, 4⟩ ⟨2, 3, 5, [99, 100], 1⟩)) :=
  ⟨⟨by decide, by decide⟩,
    highlight_header_line_and_column (ascii "f.sql") (ascii "ab\ncd\n") ⟨3, 4⟩
      ⟨2, 3, 5, [99, 100], 1⟩ (by decide) (by decide)⟩

/-- Claim C6, counterexample: one report printed by `Error::print` whose
primary span sits on line 1 (gutter width 1) and whose note span sits on
line 11 (gutter width 2): the gutters of the two blocks differ, so not all
gutters match the widest line-number string of the report. -/
theorem gutter_widths_differ_across_blocks :
    (highlightParts (ascii "a\nb\nc\nd\ne\nf\ng\nh\ni\nj\nk\n") ⟨0, 1⟩).map
        (fun p => (natDigits p.line).length) = some 1 ∧
    (highlightParts (ascii "a\nb\nc\nd\ne\nf\ng\nh\ni\nj\nk\n") ⟨20, 21⟩).map
        (fun p => (natDigits p.line).length) = some 2 ∧
    (errorPrint (ascii "q.sql") (ascii "a\nb\nc\nd\ne\nf\ng\nh\ni\nj\nk\n")
        ⟨⟨0, 1⟩, ascii "boom", some (ascii "see", some ⟨20, 21⟩), none⟩).isSome = true ∧
    (1 : Nat) ≠ 2 := by
  decide

/-- Claim C6 as amended: within one highlighted block the two gutter pad
lines are exactly as wide as that block's own line-number string; blocks of
one report are rendered independently, each with its own width. -/
theorem render_gutter_width_per_block (fname input : List Nat) (span : Span)
    (p : HighlightParts) (_hp : highlightParts input span = some p) :
    renderHighlight fname span p =
      renderHeader fname span p
        ++ spaces (natDigits p.line).length ++ ascii " |" ++ [10]
        ++ natDigits p.line ++ ascii " | " ++ p.lineContent ++ [10]
        ++ spaces (natDigits p.line).length ++ ascii " | "
        ++ spaces (span.start - p.lineStart) ++ [94]
        ++ tildes (p.markLen - 1) ++ [10] := by
  simp only [renderHighlight, tildes, drop_one_replicate, List.append_assoc]

/-- Witness for the amended C6 at a concrete block (line 2 of `"ab\ncd\n"`,
gutter width 1). -/
theorem render_gutter_width_per_block_witness :
    highlightParts (ascii "ab\ncd\n") ⟨3, 4⟩ = some ⟨2, 3, 5, [99, 100], 1⟩ ∧
    renderHighlight (ascii "f.sql") ⟨3, 4⟩ ⟨2, 3, 5, [99, 100], 1⟩ =
      renderHeader (ascii "f.sql") ⟨3, 4⟩ ⟨2, 3, 5, [99, 100], 1⟩
        ++ spaces (natDigits 2).length ++ ascii " |" ++ [10]
        ++ natDigits 2 ++ ascii " | " ++ [99, 100] ++ [10]
        ++ spaces (natDigits 2).length ++ ascii " | "
        ++ spaces (3 - 3) ++ [94] ++ tildes (1 - 1) ++ [10] :=
  ⟨by decide,
    render_gutter_width_per_block (ascii "f.sql") (ascii "ab\ncd\n") ⟨3, 4⟩
      ⟨2, 3, 5, [99, 100], 1⟩ (by decide)⟩

/-! ## The AST and the debug pretty-printer (`src/src/target/debug.rs`) -/

/-- Modelled from the spec: `ast.rs` is not under `src/`; §3 gives
`Parameter = {ident: Span, type_: Span}`. -/
structure Parameter where
  ident : Span
  type_ : Span
deriving DecidableEq, Repr

/-- Modelled from the spec: `ast.rs` is not under `src/`; §3 gives
`Annotation = {name, parameters (source order), result_type}` (named
`Annot` here). -/
structure Annot where
  name : Span
  parameters : List Parameter
  result_type : Span
deriving DecidableEq, Repr

/-- Modelled from the spec: `ast.rs` is not under `src/`; §3 gives
`Query = {docs: ordered Spans, annotation}`; the body is implicit (the
statement following the annotation block) and not a stored field the debug
printer reads. -/
structure Query where
  docs : List Span
  annot : Annot
deriving DecidableEq, Repr

/-- Modelled from the spec: `ast.rs` is not under `src/`; §3 gives
`Section = Verbatim (Span) | Query`. -/
inductive Section where
  | verbatim (s : Span)
  | query (q : Query)
deriving DecidableEq, Repr

/-- Modelled from the spec: `ast.rs` is not under `src/`; §3 gives
`Document = ordered sequence of Sections` (specialized to `Span` payloads,
as the debug printer consumes it). -/
structure Document where
  sections : List Section
deriving DecidableEq, Repr

/-- Lowercase hex digits, one per unit of fuel. -/
def hexDigitsGo : Nat → Nat → List Nat
  | 0, n => [if n % 16 < 10 then 48 + n % 16 else 87 + n % 16]
  | fuel + 1, n =>
    if n < 16 then [if n < 10 then 48 + n else 87 + n]
    else hexDigitsGo fuel (n / 16) ++ [if n % 16 < 10 then 48 + n % 16 else 87 + n % 16]

/-- Lowercase hex digit bytes of `n` (as in Rust `{:x}`). -/
def hexDigits (n : Nat) : List Nat := hexDigitsGo n n

/-- Rust `char::escape_debug` on one byte of string content, as used by the
`Debug` formatting of `&str`: escapes `"`, `\`, `\n`, `\r`, `\t`; other
control bytes become `\u{..}` (123/125 are the brace bytes); everything else
— including bytes of printable multi-byte characters — passes through. -/
def escDebugByte (b : Nat) : List Nat :=
  if b = 34 then [92, 34]
  else if b = 92 then [92, 92]
  else if b = 10 then [92, 110]
  else if b = 13 then [92, 114]
  else if b = 9 then [92, 116]
  else if b < 32 ∨ b = 127 then [92, 117, 123] ++ hexDigits b ++ [125]
  else [b]

/-- Rust `{:?}` (`Debug`) formatting of a `&str`: the content escaped, in
double quotes. -/
def rustStrDebug (s : List Nat) : List Nat :=
  [34] ++ (s.map escDebugByte).flatten ++ [34]

/-- `"\x1b[31m"` -/
def red : List Nat := ascii "\x1b[31m"
/-- `"\x1b[32m"` -/
def green : List Nat := ascii "\x1b[32m"
/-- `"\x1b[33m"` -/
def yellow : List Nat := ascii "\x1b[33m"
/-- `"\x1b[34m"` -/
def blue : List Nat := ascii "\x1b[34m"
/-- `"\x1b[0m"` -/
def reset : List Nat := ascii "\x1b[0m"

/-- `src/src/target/debug.rs` `process_file`, `Section::Query` arm: the blue
marker, one `{red}--{doc}` line per doc span, the `@query` line, one
parameter line per parameter in source order, and the result-type line;
parameter types and the result type are printed with `{:?}`. `none` models
a panic inside `Span::resolve`. -/
def queryLines (input : List Nat) (q : Query) : Option (List Nat) := do
  let docs ← q.docs.mapM (fun d => do
    let t ← d.resolve input
    pure (red ++ ascii "--" ++ t ++ [10]))
  let name ← q.annot.name.resolve input
  let params ← q.annot.parameters.mapM (fun pr => do
    let i ← pr.ident.resolve input
    let ty ← pr.type_.resolve input
    pure (reset ++ ascii "-- " ++ i ++ ascii ": " ++ yellow ++ rustStrDebug ty ++ [10]))
  let rty ← q.annot.result_type.resolve input
  pure (blue ++ docs.flatten
    ++ reset ++ ascii "-- " ++ green ++ ascii "@query" ++ reset ++ [32] ++ name ++ [10]
    ++ params.flatten
    ++ reset ++ ascii "-- -> " ++ yellow ++ rustStrDebug rty ++ reset ++ [10])

/-- `src/src/target/debug.rs` `process_file`, one `match section` arm:
a Verbatim section writes its resolved text unchanged; a Query section
writes its colorized lines. -/
def renderSection (input : List Nat) (s : Section) : Option (List Nat) :=
  match s with
  | .verbatim sp => sp.resolve input
  | .query q => queryLines input q

/-- The `for section in &parsed.sections` loop of `process_file`,
concatenating everything written to `out`. -/
def processGo (input : List Nat) : List Section → Option (List Nat)
  | [] => some []
  | s :: rest => do
    let r ← renderSection input s
    let rs ← processGo input rest
    pure (r ++ rs)

/-- `src/src/target/debug.rs` `process_file`: pretty-print the parsed
document; the result is everything written to `out`. -/
def processFile (input : List Nat) (d : Document) : Option (List Nat) :=
  processGo input d.sections

/-- Claim C8: `process_file` writes each Verbatim section's resolved text
unchanged (byte-for-byte), and writes each Query section as the colorized
re-emission of its doc lines, `@query` name, parameters in source order and
result type (the body follows implicitly in the document stream, not in the
Query arm); the whole output is the in-order concatenation of the sections'
renderings. -/
theorem process_file_renders_sections (input : List Nat) (d : Document) :
    processFile input d = ((d.sections.mapM (renderSection input)).map List.flatten)
    ∧ (∀ sp : Span, renderSection input (Section.verbatim sp) = Span.resolve sp input)
    ∧ (∀ q : Query, renderSection input (Section.query q) = queryLines input q) := by
  refine ⟨?_, fun sp => rfl, fun q => rfl⟩
  show processGo input d.sections = _
  induction d.sections with
  | nil => rfl
  | cons s rest ih =>
    rw [List.mapM_cons]
    cases hr : renderSection input s with
    | none => simp [processGo, hr]
    | some r =>
      cases hrs : rest.mapM (renderSection input) with
      | none =>
        have : processGo input rest = none := by rw [ih, hrs]; rfl
        simp [processGo, hr, this]
      | some rs =>
        have : processGo input rest = some rs.flatten := by rw [ih, hrs]; rfl
        simp [processGo, hr, this, hrs, List.flatten]

/-! ## The SQL lexer, annotation lexer and document parser

`lex_sql.rs`, `lex_annotation.rs` and `parse.rs` are declared in
`src/src/lib.rs` but their sources are not under `src/`; the definitions in
this section are modelled from spec §4.1–§4.3 and §2. -/

/-- Modelled from the spec: `lex_sql.rs` is missing; §4.1 names the token
classes — identifiers, punctuation, string/numeric literals, doc-comment
lines (kept distinct), an error kind for invalid input, and an explicit
end-of-input marker. Whitespace runs are covered by a token of their own so
the stream covers the entire buffer. -/
inductive SqlTokenKind where
  | ident
  | number
  | strLit
  | space
  | commentDoc
  | punct
  | lexError
  | eof
deriving DecidableEq, Repr

/-- Modelled from the spec: a token is a kind tag and a `Span` (§3). -/
structure SqlToken where
  kind : SqlTokenKind
  span : Span
deriving DecidableEq, Repr

/-- ASCII whitespace byte. -/
def isWs (b : Nat) : Bool := b == 32 || b == 9 || b == 13 || b == 10

/-- ASCII digit byte. -/
def isDigitB (b : Nat) : Bool := 48 ≤ b && b ≤ 57

/-- Modelled from the spec: one step of the SQL lexer at byte offset `pos`,
returning the token and the next offset. `--` starts a doc-comment line
token running to the end of the line, trailing newline included, so that
consecutive doc-comment lines form a contiguous token run (§4.3 matches on
such runs); identifier runs use
`is_ascii_identifier`; an unterminated `'…'` string literal becomes an
error-kind token covering the rest of the input (§4.1: invalid input is an
error token, never an abort). Every step consumes at least one byte. -/
def lexStep (input : List Nat) (pos : Nat) : SqlToken × Nat :=
  match input.drop pos with
  | [] => (⟨.eof, ⟨pos, pos⟩⟩, pos + 1)
  | b :: after =>
    if b == 45 && after.headD 0 == 45 then
      let k := ((after.drop 1).takeWhile (fun c => !(c == 10))).length
      let n := 2 + k + (if k < (after.drop 1).length then 1 else 0)
      (⟨.commentDoc, ⟨pos, pos + n⟩⟩, pos + n)
    else if isWs b then
      let n := 1 + (after.takeWhile isWs).length
      (⟨.space, ⟨pos, pos + n⟩⟩, pos + n)
    else if isDigitB b then
      let n := 1 + (after.takeWhile isDigitB).length
      (⟨.number, ⟨pos, pos + n⟩⟩, pos + n)
    else if is_ascii_identifier b then
      let n := 1 + (after.takeWhile (fun c => is_ascii_identifier c)).length
      (⟨.ident, ⟨pos, pos + n⟩⟩, pos + n)
    else if b == 39 then
      let k := (after.takeWhile (fun c => !(c == 39))).length
      if k < after.length then (⟨.strLit, ⟨pos, pos + 2 + k⟩⟩, pos + 2 + k)
      else (⟨.lexError, ⟨pos, input.length⟩⟩, input.length)
    else (⟨.punct, ⟨pos, pos + 1⟩⟩, pos + 1)

/-- Modelled from the spec: the `Lexer::run` loop, with explicit fuel; each
iteration appends one token and advances. At the end of input the explicit
`eof` marker is appended (§3: a finite token sequence terminated by an
end-of-input marker). -/
def lexRun : Nat → List Nat → Nat → List SqlToken → Option (List SqlToken)
  | 0, _, _, _ => none
  | fuel + 1, input, pos, acc =>
    if pos < input.length then
      let s := lexStep input pos
      lexRun fuel input s.2 (acc ++ [s.1])
    else some (acc ++ [⟨.eof, ⟨pos, pos⟩⟩])

/-- Modelled from the spec: `Lexer::new(input).run()` — fuel linear in the
input length, shown sufficient below. -/
def lexerRun (input : List Nat) : Option (List SqlToken) :=
  lexRun (input.length + 1) input 0 []

theorem lexStep_lt (input : List Nat) (pos : Nat) (hp : pos < input.length) :
    pos < (lexStep input pos).2 := by
  cases h : input.drop pos with
  | nil =>
    exfalso
    have hlen := List.length_drop pos input
    rw [h] at hlen
    simp at hlen
    omega
  | cons b after =>
    simp only [lexStep, h]
    split_ifs <;> simp <;> omega

theorem lexRun_isSome (input : List Nat) :
    ∀ (fuel pos : Nat) (acc : List SqlToken), input.length - pos < fuel →
      (lexRun fuel input pos acc).isSome = true := by
  intro fuel
  induction fuel with
  | zero => intro pos acc h; omega
  | succ n ih =>
    intro pos acc h
    by_cases hp : pos < input.length
    · have hstep := lexStep_lt input pos hp
      simp only [lexRun, if_pos hp]
      exact ih _ _ (by omega)
    · simp only [lexRun, if_neg hp, Option.isSome_some]

/-- Modelled from the spec: `lex_annotation.rs` is missing; §4.2 names the
token set of one annotation block — directive keyword, identifier, colon,
arrow, comma (type names lex as identifiers) — plus an end marker and a bad
byte kind for malformed input. -/
inductive AnnTokenKind where
  | directive
  | annIdent
  | colon
  | arrow
  | comma
  | annEnd
  | annBad
deriving DecidableEq, Repr

/-- Modelled from the spec: an annotation token carries absolute file
offsets (§4.2: spans must resolve against the original buffer). -/
structure AnnToken where
  kind : AnnTokenKind
  span : Span
deriving DecidableEq, Repr

/-- Modelled from the spec: one step of the annotation lexer inside the
byte range `[pos, stop)` of the original input; whitespace and the `--`
markers of the block's comment lines yield no token; `->` lexes as the
arrow; every step consumes at least one byte. Spans use absolute offsets. -/
def annLexStep (input : List Nat) (pos stop : Nat) : Option AnnToken × Nat :=
  match (input.take stop).drop pos with
  | [] => (some ⟨.annBad, ⟨pos, pos + 1⟩⟩, pos + 1)
  | b :: after =>
    if isWs b then (none, pos + 1)
    else if b == 64 then
      let n := 1 + (after.takeWhile (fun c => is_ascii_identifier c)).length
      (some ⟨.directive, ⟨pos, pos + n⟩⟩, pos + n)
    else if is_ascii_identifier b then
      let n := 1 + (after.takeWhile (fun c => is_ascii_identifier c)).length
      (some ⟨.annIdent, ⟨pos, pos + n⟩⟩, pos + n)
    else if b == 58 then (some ⟨.colon, ⟨pos, pos + 1⟩⟩, pos + 1)
    else if b == 44 then (some ⟨.comma, ⟨pos, pos + 1⟩⟩, pos + 1)
    else if b == 45 && after.headD 0 == 62 then (some ⟨.arrow, ⟨pos, pos + 2⟩⟩, pos + 2)
    else if b == 45 && after.headD 0 == 45 then (none, pos + 2)
    else (some ⟨.annBad, ⟨pos, pos + 1⟩⟩, pos + 1)

/-- Modelled from the spec: the annotation lexer loop over the sliced-out
block, with explicit fuel; emits the end marker at the end of the range. -/
def annLexRun : Nat → List Nat → Nat → Nat → List AnnToken → Option (List AnnToken)
  | 0, _, _, _, _ => none
  | fuel + 1, input, pos, stop, acc =>
    if pos < stop then
      match annLexStep input pos stop with
      | (none, p2) => annLexRun fuel input p2 stop acc
      | (some t, p2) => annLexRun fuel input p2 stop (acc ++ [t])
    else some (acc ++ [⟨.annEnd, ⟨pos, pos⟩⟩])

/-- Modelled from the spec: parse the parameter list and result clause of an
annotation token stream — zero or more `identifier : type` pairs with
optional comma, then `-> type` and the end of the block (§4.2, §6);
any other shape is a malformed-annotation error at the offending token. -/
def parseParamsToks : List AnnToken → List Parameter → Span → Except ParseError Annot
  | ⟨.arrow, _⟩ :: ⟨.annIdent, rSp⟩ :: ⟨.annEnd, _⟩ :: _, acc, nameSp =>
      .ok ⟨nameSp, acc.reverse, rSp⟩
  | ⟨.annIdent, iSp⟩ :: ⟨.colon, _⟩ :: ⟨.annIdent, tSp⟩ :: ⟨.comma, _⟩ :: rest, acc, nameSp =>
      parseParamsToks rest (⟨iSp, tSp⟩ :: acc) nameSp
  | ⟨.annIdent, iSp⟩ :: ⟨.colon, _⟩ :: ⟨.annIdent, tSp⟩ :: rest, acc, nameSp =>
      parseParamsToks rest (⟨iSp, tSp⟩ :: acc) nameSp
  | t :: _, _, _ => .error ⟨t.span, ascii "malformed annotation"⟩
  | [], _, _ => .error ⟨⟨0, 0⟩, ascii "malformed annotation"⟩

/-- Modelled from the spec: parse one annotation block's token stream —
the `@query` directive, the query name, then parameters and result type. -/
def parseAnnToks : List AnnToken → Except ParseError Annot
  | ⟨.directive, _⟩ :: ⟨.annIdent, nameSp⟩ :: rest => parseParamsToks rest [] nameSp
  | t :: _ => .error ⟨t.span, ascii "expected @query directive and query name"⟩
  | [] => .error ⟨⟨0, 0⟩, ascii "empty annotation"⟩

/-- Is this token a doc-comment token? -/
def isDocTok (t : SqlToken) : Bool := t.kind == SqlTokenKind.commentDoc

/-- Does `pat` lead the list `l` (byte-wise)? -/
def leadsWith : List Nat → List Nat → Bool
  | [], _ => true
  | _ :: _, [] => false
  | a :: as, b :: bs => a == b && leadsWith as bs

/-- Does `pat` occur contiguously anywhere in the list? -/
def containsSeq (pat : List Nat) : List Nat → Bool
  | [] => leadsWith pat []
  | a :: r => leadsWith pat (a :: r) || containsSeq pat r

/-- The bytes a token's span covers. -/
def tokBytes (input : List Nat) (t : SqlToken) : List Nat :=
  (input.take t.span.stop).drop t.span.start

/-- Modelled from the spec: a doc-comment line carries the `@query`
directive when its bytes contain the directive keyword (§4.3). -/
def docTokHasDirective (input : List Nat) (t : SqlToken) : Bool :=
  containsSeq (ascii "@query") (tokBytes input t)

/-- Split a doc-comment run at its first directive-carrying token:
the plain doc lines before it, the directive token, and the rest. -/
def splitAtDirective (input : List Nat) : List SqlToken →
    Option (List SqlToken × SqlToken × List SqlToken)
  | [] => none
  | t :: rest =>
    if docTokHasDirective input t then some ([], t, rest)
    else
      match splitAtDirective input rest with
      | none => none
      | some (a, d, b) => some (t :: a, d, b)

/-- A semicolon punctuation token (the statement terminator of §4.3). -/
def isSemiTok (input : List Nat) (t : SqlToken) : Bool :=
  t.kind == SqlTokenKind.punct && (input.drop t.span.start).headD 0 == 59

/-- Modelled from the spec: a doc span is the comment line stripped of its
`--` marker but otherwise verbatim (§4.3 step 1). -/
def stripMarker (sp : Span) : Span := ⟨min (sp.start + 2) sp.stop, sp.stop⟩

/-- End offset of a doc-comment run (the last token's span end). -/
def runEnd (docRun : List SqlToken) (dflt : Nat) : Nat :=
  match docRun.getLast? with
  | some t => t.span.stop
  | none => dflt

/-- One step of the document parser: either the parse is finished (with a
document or the first error, §4.3's fail-fast policy), or at least one token
is consumed and a section is accumulated. -/
inductive PStep where
  | done : Except ParseError Document → PStep
  | more : List SqlToken → List Section → PStep

/-- Modelled from the spec: `parse.rs` is missing; one step of
`parse_document` (§4.3). A doc-comment run containing the `@query`
directive becomes a Query section: the lines before the directive are its
docs, the directive line and the following annotation lines are handed to
the annotation lexer and parser, and the statement up to its `;` terminator
is consumed (a missing statement is the dangling-annotation error). A
directive-less doc run, and any other token, is emitted as Verbatim; a
lexer error token becomes the first error. -/
def parseStep (input : List Nat) (toks : List SqlToken) (acc : List Section) : PStep :=
  match toks with
  | [] => .done (.ok ⟨acc.reverse⟩)
  | t :: rest =>
    match t.kind with
    | .eof => .done (.ok ⟨acc.reverse⟩)
    | .lexError => .done (.error ⟨t.span, ascii "unrecognized input"⟩)
    | .commentDoc =>
      let docRun := toks.takeWhile isDocTok
      let afterDocs := toks.dropWhile isDocTok
      match splitAtDirective input docRun with
      | none =>
        .more afterDocs (Section.verbatim ⟨t.span.start, runEnd docRun t.span.stop⟩ :: acc)
      | some (docsToks, dirTok, _) =>
        let blockEnd := runEnd docRun t.span.stop
        match annLexRun (blockEnd - dirTok.span.start + 1) input dirTok.span.start blockEnd [] with
        | none => .done (.error ⟨⟨dirTok.span.start, blockEnd⟩, ascii "malformed annotation"⟩)
        | some annToks =>
          match parseAnnToks annToks with
          | .error e => .done (.error e)
          | .ok ann =>
            match afterDocs.dropWhile (fun tk => !(isSemiTok input tk)) with
            | [] =>
              .done (.error ⟨⟨blockEnd, blockEnd⟩, ascii "expected statement after annotation"⟩)
            | _semi :: rest2 =>
              .more rest2
                (Section.query ⟨docsToks.map (fun d => stripMarker d.span), ann⟩ :: acc)
    | _ => .more rest (Section.verbatim t.span :: acc)

/-- Modelled from the spec: the `parse_document` driver loop with explicit
fuel; every `.more` step consumes at least one token. -/
def parseDoc : Nat → List Nat → List SqlToken → List Section →
    Option (Except ParseError Document)
  | 0, _, _, _ => none
  | fuel + 1, input, toks, acc =>
    match parseStep input toks acc with
    | .done r => some r
    | .more toks2 acc2 => parseDoc fuel input toks2 acc2

/-- Modelled from the spec: `Parser::new(input, tokens).parse_document()`,
run with fuel linear in the token count, shown sufficient below. -/
def parse_document (input : List Nat) (toks : List SqlToken) :
    Option (Except ParseError Document) :=
  parseDoc (toks.length + 1) input toks []

/-- The fuzz target's pipeline (`src/fuzz/fuzz_targets/parse.rs`): run the
SQL lexer over the input, then the document parser over the token stream. -/
def parsePipeline (input : List Nat) : Option (Except ParseError Document) :=
  match lexerRun input with
  | none => none
  | some toks => parse_document input toks

theorem len_dropWhile_le (f : SqlToken → Bool) (l : List SqlToken) :
    (l.dropWhile f).length ≤ l.length := by
  induction l with
  | nil => simp
  | cons a t ih =>
    rw [List.dropWhile_cons]
    by_cases h : f a = true <;> simp [h] <;> omega

/-- Every `.more` step of the document parser strictly consumes tokens. -/
theorem parseStep_more_length (input : List Nat) (toks : List SqlToken)
    (acc : List Section) (toks2 : List SqlToken) (acc2 : List Section)
    (h : parseStep input toks acc = .more toks2 acc2) :
    toks2.length < toks.length := by
  cases toks with
  | nil => exact absurd h (by simp [parseStep])
  | cons t rest =>
    obtain ⟨k, sp⟩ := t
    cases k <;> simp only [parseStep] at h
    case eof => exact absurd h (by simp)
    case lexError => exact absurd h (by simp)
    case commentDoc =>
      have hdoc : isDocTok ⟨SqlTokenKind.commentDoc, sp⟩ = true := rfl
      have hdw : (⟨SqlTokenKind.commentDoc, sp⟩ :: rest).dropWhile isDocTok
          = rest.dropWhile isDocTok := by
        rw [List.dropWhile_cons, if_pos hdoc]
      have hle : (rest.dropWhile isDocTok).length ≤ rest.length :=
        len_dropWhile_le isDocTok rest
      split at h
      · cases h
        rw [hdw]
        simp
        omega
      · split at h
        · exact absurd h (by simp)
        · split at h
          · exact absurd h (by simp)
          · split at h
            · exact absurd h (by simp)
            · rename_i heq
              cases h
              have hlen := congrArg List.length heq
              have hle2 := len_dropWhile_le (fun tk => !(isSemiTok input tk))
                ((⟨SqlTokenKind.commentDoc, sp⟩ :: rest).dropWhile isDocTok)
              rw [hdw] at hle2 hlen
              simp at hlen
              simp
              omega
    all_goals (cases h; simp)

theorem parseDoc_isSome (input : List Nat) :
    ∀ (fuel : Nat) (toks : List SqlToken) (acc : List Section), toks.length < fuel →
      (parseDoc fuel input toks acc).isSome = true := by
  intro fuel
  induction fuel with
  | zero => intro toks acc h; omega
  | succ n ih =>
    intro toks acc h
    cases hs : parseStep input toks acc with
    | done r => simp [parseDoc, hs]
    | more toks2 acc2 =>
      have := parseStep_more_length input toks acc toks2 acc2 hs
      simp only [parseDoc, hs]
      exact ih toks2 acc2 (by omega)

/-- Claim C3: for every byte sequence presented as input, running the SQL
lexer and then the document parser terminates — fuel linear in the input
suffices for the lexer, and fuel linear in the token count for the parser —
and yields a value (a document or a single parse error), never a panic. -/
theorem lexer_parser_pipeline_total (input : List Nat) :
    (parsePipeline input).isSome = true := by
  have hl : (lexerRun input).isSome = true :=
    lexRun_isSome input (input.length + 1) 0 [] (by omega)
  obtain ⟨toks, ht⟩ := Option.isSome_iff_exists.mp hl
  simp only [parsePipeline, ht, parse_document]
  exact parseDoc_isSome input (toks.length + 1) toks [] (by omega)
